import Mathlib

set_option maxHeartbeats 1000000

namespace ApmPlanner

/-!
Shallow embedding of the two source files of `apm_planner`:
`src/comm/SerialLink.cc` and `src/ui/configuration/PX4FirmwareUploader.cc`.
Bytes and character codes are modelled as `Nat`, byte strings and Qt strings
as `List Nat`, C++ `int`/`qint64` values as `Int`/`Nat` where the sign is
irrelevant.  External environment behaviour (bytes arriving on the serial
port, sync outcomes) is passed in explicitly as lists of events.
-/

/-! ### SerialLink.cc : connection statistics (getTotalUpstream / getTotalDownstream) -/

/-- Divisor used by `SerialLink::getTotalUpstream` and
`SerialLink::getTotalDownstream`: `(getGroundTimeNow() - m_connectionStartTime) / 1000`,
with times in milliseconds. -/
def elapsedDivisor (now start : Nat) : Nat := (now - start) / 1000

/-- Embedding of `SerialLink::getTotalUpstream`:
`m_bitsSentTotal / ((getGroundTimeNow() - m_connectionStartTime) / 1000)`.
The division is performed unconditionally. -/
def getTotalUpstream (bitsSentTotal now start : Nat) : Nat :=
  bitsSentTotal / elapsedDivisor now start

/-- Embedding of `SerialLink::getTotalDownstream`:
`m_bitsReceivedTotal / ((getGroundTimeNow() - m_connectionStartTime) / 1000)`. -/
def getTotalDownstream (bitsReceivedTotal now start : Nat) : Nat :=
  bitsReceivedTotal / elapsedDivisor now start

/-! ### SerialLink.cc : per-port baud map persistence (writeSettings / loadSettings) -/

/-- Decimal digits of a natural number, most significant first
(the digit list produced by `QString::number` before mapping to characters). -/
def natDigits (n : Nat) : List Nat :=
  if _h : n < 10 then [n] else natDigits (n / 10) ++ [n % 10]
termination_by n
decreasing_by exact Nat.div_lt_self (by omega) (by omega)

/-- Character codes of the decimal representation of a natural number. -/
def natChars (n : Nat) : List Nat := (natDigits n).map (fun d => d + 48)

/-- Embedding of `QString::number(int)`: character codes of the decimal
representation, with a leading minus sign (code 45) for negatives. -/
def qsNumber (v : Int) : List Nat :=
  if v < 0 then 45 :: natChars v.natAbs else natChars v.toNat

/-- Character test for an ASCII decimal digit. -/
def isDigitChar (c : Nat) : Bool := 48 ≤ c && c ≤ 57

/-- Accumulate a digit-character list into a natural number. -/
def parseNatChars (s : List Nat) : Nat := s.foldl (fun a c => a * 10 + (c - 48)) 0

/-- Embedding of `QString::toInt`: parses an optional minus sign followed by
decimal digits; any malformed input yields 0. -/
def qToInt (s : List Nat) : Int :=
  if s.head? = some 45 then
    (if !s.tail.isEmpty && s.tail.all isDigitChar then -(parseNatChars s.tail : Int) else 0)
  else if !s.isEmpty && s.all isDigitChar then (parseNatChars s : Int) else 0

/-- Serialized form of one port-to-baud entry: `key + ":" + QString::number(value)`
(58 is the code of the colon). -/
def entryChars (kv : List Nat × Int) : List Nat := kv.1 ++ 58 :: qsNumber kv.2

/-- Embedding of the serialization loop in `SerialLink::writeSettings`:
append `key:value,` for every map entry in order; 44 is the comma code. -/
def fullSer (m : List (List Nat × Int)) : List Nat :=
  m.foldl (fun acc kv => acc ++ entryChars kv ++ [44]) []

/-- Embedding of the final `portbaudmap.mid(0, portbaudmap.length()-1)`: drop
the trailing comma (on the empty string `mid` returns the empty string). -/
def writeSettingsPortMap (m : List (List Nat × Int)) : List Nat :=
  (fullSer m).take ((fullSer m).length - 1)

/-- Embedding of `QMap::operator[]=` on an association list: replace the value
when the key is present, otherwise append the new pair. -/
def mapInsert (m : List (List Nat × Int)) (k : List Nat) (v : Int) : List (List Nat × Int) :=
  if m.any (fun kv => kv.1 == k) then m.map (fun kv => if kv.1 = k then (k, v) else kv)
  else m ++ [(k, v)]

/-- One step of the port-map parsing in `SerialLink::loadSettings`: a piece
that splits on a colon (58) into exactly two parts is inserted as
`key -> toInt(value)`; any other piece is skipped. -/
def parseStep (acc : List (List Nat × Int)) (pb : List Nat) : List (List Nat × Int) :=
  match pb.splitOn 58 with
  | [k, v] => mapInsert acc k (qToInt v)
  | _ => acc

/-- Embedding of the port-map parsing in `SerialLink::loadSettings` proper:
split the stored string on commas, fold `parseStep` over the pieces, and if the
resulting map is empty install the fallback entry
`m_portBaudMap[m_portName] = m_baud`. -/
def loadSettingsPortMap (serialized portName : List Nat) (baud : Int) :
    List (List Nat × Int) :=
  let m := (serialized.splitOn 44).foldl parseStep []
  if m.length = 0 then [(portName, baud)] else m

/-! ### SerialLink.cc : setPortName / setBaudRate -/

/-- Character-code test matching `QChar::isSpace` on the ASCII range. -/
def isSpaceChar (c : Nat) : Bool := (9 ≤ c && c ≤ 13) || c == 32

/-- Embedding of `QString::trimmed`: strip leading and trailing whitespace. -/
def qTrimmed (s : List Nat) : List Nat :=
  ((s.dropWhile isSpaceChar).reverse.dropWhile isSpaceChar).reverse

/-- State of a `SerialLink` as far as `setPortName`/`setBaudRate` touch it.
`hasPort` models `m_port != NULL`; `portSetBaudOk` is the environment's answer
to `m_port->setBaudRate` (the device may reject a rate). -/
structure SLState where
  portName : List Nat
  baud : Int
  portBaudMap : List (List Nat × Int)
  hasPort : Bool
  portSetBaudOk : Bool
deriving DecidableEq, Repr

/-- Lookup in the association-list model of `m_portBaudMap`. -/
def lookupMap (m : List (List Nat × Int)) (k : List Nat) : Option Int :=
  match m.find? (fun kv => kv.1 == k) with
  | some kv => some kv.2
  | none => none

/-- Embedding of `SerialLink::setBaudRate`: when the rate differs from the
current one, store it, record it in the per-port map under the current port
name, and (when a device is attached) let the device decide acceptance. -/
def setBaudRate (st : SLState) (rate : Int) : Bool × SLState :=
  if rate ≠ st.baud then
    ((if st.hasPort then st.portSetBaudOk else true),
      { st with baud := rate, portBaudMap := mapInsert st.portBaudMap st.portName rate })
  else (false, st)

/-- Embedding of `SerialLink::setPortName`: a new, non-empty (after trimming),
distinct port name is stored (trimmed); when the per-port baud map remembers a
rate for that name, `setBaudRate` is applied.  The local `accepted` flag is
initialised to `false` and never set, and is what the accepting branch
returns. -/
def setPortName (st : SLState) (portName : List Nat) : Bool × SLState :=
  if portName ≠ st.portName ∧ 0 < (qTrimmed portName).length then
    match lookupMap st.portBaudMap (qTrimmed portName) with
    | some r => (false, (setBaudRate { st with portName := qTrimmed portName } r).2)
    | none => (false, { st with portName := qTrimmed portName })
  else (false, st)

/-! ### PX4FirmwareUploader.cc : readBytes and get_sync -/

/-- Embedding of `PX4FirmwareUploader::readBytes` (the reachable part of it):
if the internal accumulator `m_serialBuffer` already holds `num` bytes they are
consumed; otherwise bytes arriving before the timeout (`arriving`) are appended
and, once `num` bytes are available, consumed; a timeout without `num` bytes
returns -1 and delivers nothing. The pair is (return value, bytes delivered). -/
def readBytes (num : Nat) (serialBuffer arriving : List Nat) : Int × List Nat :=
  if num ≤ serialBuffer.length then ((num : Int), serialBuffer.take num)
  else if num ≤ (serialBuffer ++ arriving).length then
    ((num : Int), (serialBuffer ++ arriving).take num)
  else (-1, [])

/-- Embedding of `PX4FirmwareUploader::get_sync`: read 2 bytes; -1 on a short
read; -1 unless the two bytes are 0x12 (in-sync) and 0x10 (ok); 0 on success. -/
def get_sync (serialBuffer arriving : List Nat) : Int :=
  let r := readBytes 2 serialBuffer arriving
  if r.1 ≠ 2 then -1
  else if r.2[0]? ≠ some 0x12 ∨ r.2[1]? ≠ some 0x10 then -1
  else 0

/-! ### PX4FirmwareUploader.cc : OTP header check -/

/-- Embedding of the OTP header check at the `if` on line 424 of
`PX4FirmwareUploader::run`:
`otpbuf[0] != 80 && otpbuf[1] != 88 && otpbuf[2] != 52 && otpbuf[3] != 0`.
The buffer is rejected (the attempt abandoned) exactly when this is true. -/
def otpHeaderRejected (otpbuf : List Nat) : Bool :=
  (otpbuf.getD 0 0 != 80) && (otpbuf.getD 1 0 != 88) &&
  (otpbuf.getD 2 0 != 52) && (otpbuf.getD 3 0 != 0)

/-- Concrete OTP buffer used to exercise the header check: its 4-byte header
`80,0,0,1` differs from the magic `80,88,52,0`. -/
def otpBufEx : List Nat := 80 :: 0 :: 0 :: 1 :: List.replicate 508 0

/-! ### PX4FirmwareUploader.cc : firmware decode (tail of loadFile) -/

/-- Embedding of the padding loop in `PX4FirmwareUploader::loadFile`:
`while ((uncompressed.count() % 4) != 0) uncompressed.append(0xFF);`. -/
def padFF (l : List Nat) : List Nat :=
  if l.length % 4 = 0 then l else padFF (l ++ [0xFF])
termination_by (4 - l.length % 4) % 4
decreasing_by simp [List.length_append]; omega

/-- Embedding of the decode tail of `PX4FirmwareUploader::loadFile`, entered
with the result of `qUncompress` on the size-header-prefixed, base64-decoded
blob: if its length differs from the declared `image_size` the load fails
(returns false, nothing is flashed); otherwise the payload is padded with 0xFF
to a multiple of 4 and stored in the temp file that feeds programming. -/
def loadFileDecode (uncompressed : List Nat) (imageSize : Nat) : Option (List Nat) :=
  if uncompressed.length = imageSize then some (padFF uncompressed) else none

/-! ### PX4FirmwareUploader.cc : serial-number read loop -/

/-- Environment events of the serial-number read loop: per chunk, either a
short read (`readBytes` returned fewer than 4 bytes) or a 4-byte chunk together
with the outcome of the following `get_sync`. -/
inductive SnEvt
| shortRead
| chunk (bytes : List Nat) (syncOk : Bool)
deriving DecidableEq, Repr

/-- Result of the serial-number read loop. -/
inductive SnResult
| done (snbuf : List Nat)
| abortAttempt (snbuf : List Nat)
| outOfEvents
deriving DecidableEq, Repr

/-- Is the result an abandonment of the upload attempt (the `bad = true; break`
path followed by `if (bad) continue;`)? -/
def SnResult.isAbort : SnResult → Bool
| .abortAttempt _ => true
| _ => false

/-- Embedding of the byte-reversed chunk store:
`snbuf[i] = bytes[3]; snbuf[i+1] = bytes[2]; snbuf[i+2] = bytes[1]; snbuf[i+3] = bytes[0];`. -/
def setChunkRev (snbuf : List Nat) (i : Nat) (bytes : List Nat) : List Nat :=
  (((snbuf.set i (bytes.getD 3 0)).set (i + 1) (bytes.getD 2 0)).set
    (i + 2) (bytes.getD 1 0)).set (i + 3) (bytes.getD 0 0)

/-- Embedding of the serial-number read loop (`for (int i=0;i<12;i+=4)` in
`PX4FirmwareUploader::run`): on a short read the address is rewound
(`i -= 4; continue;`) so the same chunk address is issued again; on a bad sync
footer the attempt is abandoned (`bad = true; break;`).  Returns the loop
result together with the list of chunk addresses issued, in order. -/
def snLoop (i : Nat) (snbuf : List Nat) (evts : List SnEvt) : SnResult × List Nat :=
  if i < 12 then
    match evts with
    | [] => (.outOfEvents, [i])
    | .shortRead :: rest =>
        let r := snLoop i snbuf rest
        (r.1, i :: r.2)
    | .chunk bytes ok :: rest =>
        let snbuf2 := setChunkRev snbuf i bytes
        if ok then
          let r := snLoop (i + 4) snbuf2 rest
          (r.1, i :: r.2)
        else (.abortAttempt snbuf2, [i])
  else (.done snbuf, [])

/-! ### PX4FirmwareUploader.cc : erase and programming phase -/

/-- Observable actions of the erase/programming phase of
`PX4FirmwareUploader::run`, in program order. -/
inductive Action
| writeFrame (bytes : List Nat)
| clearPort
| closePort
| closeTempFile
| deleteTempFile
| deletePort
| emitError
| emitProgress (pos total : Nat)
| emitDone
deriving DecidableEq, Repr

/-- Result of the erase/programming phase. -/
inductive ProgResult
| finished
| fatalProgram
| fatalEraseTimeout
| readError
deriving DecidableEq, Repr

/-- The ERASE command frame `{0x23, 0x20}`. -/
def eraseFrame : List Nat := [0x23, 0x20]

/-- The REBOOT command frame `{0x30, 0x20}`. -/
def rebootFrame : List Nat := [0x30, 0x20]

/-- Embedding of the PROGRAM_MULTI frame construction:
`tosend.append(0x27); tosend.append(buf.size()); tosend.append(buf); tosend.append(0x20);`
(the size byte is the chunk length truncated to a byte). -/
def programMultiFrame (buf : List Nat) : List Nat :=
  0x27 :: (buf.length % 256) :: (buf ++ [0x20])

/-- Embedding of the programming loop of `PX4FirmwareUploader::run`
(lines 578-660).  `payload` is the padded firmware image in the temp file,
`pos` the file position, `failure` the chunk-failure counter, `counter` the
progress cadence counter.  `syncs` is the stream of `get_sync` outcomes, one
consumed per `get_sync` call (chunk syncs and re-erase syncs alike); an
exhausted stream means a sync timeout.  On a chunk sync failure the counter is
incremented (it is never reset); past 2 the upload aborts fatally with the
port closed and the temp file released; otherwise a fresh ERASE is issued and,
if it syncs, the file is rewound to offset 0; an erase sync timeout returns
with no cleanup at all. -/
def progRun (payload : List Nat) (pos failure counter : Nat) (syncs : List Bool) :
    ProgResult × List Action :=
  if pos < payload.length then
    let buf := (payload.drop pos).take 60
    if buf.length > 0 then
      let frame := programMultiFrame buf
      match syncs with
      | true :: rest =>
          let acts := [.clearPort, .writeFrame frame] ++
            (if counter % 50 = 0 then [Action.emitProgress (pos + buf.length) payload.length]
             else [])
          let r := progRun payload (pos + buf.length) failure (counter + 1) rest
          (r.1, acts ++ r.2)
      | false :: rest =>
          if failure + 1 > 2 then
            (.fatalProgram, [.clearPort, .writeFrame frame, .emitError, .closePort,
              .closeTempFile, .deleteTempFile])
          else
            match rest with
            | true :: rest2 =>
                let r := progRun payload 0 (failure + 1) counter rest2
                (r.1, [.clearPort, .writeFrame frame, .clearPort, .writeFrame eraseFrame] ++ r.2)
            | _ =>
                (.fatalEraseTimeout,
                  [.clearPort, .writeFrame frame, .clearPort, .writeFrame eraseFrame])
      | [] =>
          if failure + 1 > 2 then
            (.fatalProgram, [.clearPort, .writeFrame frame, .emitError, .closePort,
              .closeTempFile, .deleteTempFile])
          else
            (.fatalEraseTimeout,
              [.clearPort, .writeFrame frame, .clearPort, .writeFrame eraseFrame])
    else
      (.readError, [.closePort, .closeTempFile, .deleteTempFile, .deletePort])
  else
    (.finished, [.writeFrame rebootFrame, .closePort, .closeTempFile, .deleteTempFile,
      .deletePort, .emitDone])

/-- Embedding of the erase-then-program phase (lines 549-660 of
`PX4FirmwareUploader::run`): the initial ERASE is sent; if its sync times out
the function returns with no cleanup (`return;` on line 558); otherwise the
port is cleared and the programming loop runs. -/
def eraseProgramPhase (payload : List Nat) (syncs : List Bool) :
    ProgResult × List Action :=
  match syncs with
  | true :: rest =>
      let r := progRun payload 0 0 0 rest
      (r.1, [.writeFrame eraseFrame, .clearPort] ++ r.2)
  | _ => (.fatalEraseTimeout, [.writeFrame eraseFrame])

/-- Follows the words of the spec sentence "On failure, increment a
consecutive-failure counter" / "reset by any successful chunk": identical to
`progRun` except that a successful chunk resets the failure counter to 0.
Used only to compare the spec's semantics with the code's. -/
def progRunSpecConsecutive (payload : List Nat) (pos failure counter : Nat)
    (syncs : List Bool) : ProgResult × List Action :=
  if pos < payload.length then
    let buf := (payload.drop pos).take 60
    if buf.length > 0 then
      let frame := programMultiFrame buf
      match syncs with
      | true :: rest =>
          let acts := [.clearPort, .writeFrame frame] ++
            (if counter % 50 = 0 then [Action.emitProgress (pos + buf.length) payload.length]
             else [])
          let r := progRunSpecConsecutive payload (pos + buf.length) 0 (counter + 1) rest
          (r.1, acts ++ r.2)
      | false :: rest =>
          if failure + 1 > 2 then
            (.fatalProgram, [.clearPort, .writeFrame frame, .emitError, .closePort,
              .closeTempFile, .deleteTempFile])
          else
            match rest with
            | true :: rest2 =>
                let r := progRunSpecConsecutive payload 0 (failure + 1) counter rest2
                (r.1, [.clearPort, .writeFrame frame, .clearPort, .writeFrame eraseFrame] ++ r.2)
            | _ =>
                (.fatalEraseTimeout,
                  [.clearPort, .writeFrame frame, .clearPort, .writeFrame eraseFrame])
      | [] =>
          if failure + 1 > 2 then
            (.fatalProgram, [.clearPort, .writeFrame frame, .emitError, .closePort,
              .closeTempFile, .deleteTempFile])
          else
            (.fatalEraseTimeout,
              [.clearPort, .writeFrame frame, .clearPort, .writeFrame eraseFrame])
    else
      (.readError, [.closePort, .closeTempFile, .deleteTempFile, .deletePort])
  else
    (.finished, [.writeFrame rebootFrame, .closePort, .closeTempFile, .deleteTempFile,
      .deletePort, .emitDone])

/-- Concrete 64-byte payload (two chunks: 60 bytes and 4 bytes). -/
def payload64 : List Nat := List.replicate 64 7

/-- Concrete sync-outcome stream: chunk fail, erase ok, chunk ok, chunk fail,
erase ok, chunk ok, chunk fail, erase ok, chunk ok, chunk ok. -/
def syncsEx : List Bool :=
  [false, true, true, false, true, true, false, true, true, true]

/-! ## Helper lemmas about the padding loop -/

theorem padFF_base (l : List Nat) (h : l.length % 4 = 0) : padFF l = l := by
  rw [padFF]
  exact if_pos h

theorem padFF_step (l : List Nat) (h : ¬ l.length % 4 = 0) :
    padFF l = padFF (l ++ [255]) := by
  conv_lhs => rw [padFF]
  exact if_neg h

theorem padFF_eq (l : List Nat) :
    padFF l = l ++ List.replicate ((4 - l.length % 4) % 4) 255 := by
  by_cases h : l.length % 4 = 0
  · rw [padFF_base l h, h]
    simp
  · rw [padFF_step l h, padFF_eq (l ++ [255])]
    have hk : (4 - l.length % 4) % 4 = ((4 - (l ++ [255]).length % 4) % 4) + 1 := by
      simp only [List.length_append, List.length_cons, List.length_nil]
      omega
    rw [hk, List.replicate_succ, List.append_assoc]
    rfl
termination_by (4 - l.length % 4) % 4
decreasing_by simp [List.length_append]; omega

/-! ## Claim theorems -/

/-- C1: the spec requires the OTP magic header `80,88,52,0` to be validated and
any other header rejected, but the check on line 424 joins the four byte
mismatches with `&&` instead of `||`: a buffer whose header is `80,0,0,1`
(wrong magic) is not rejected, and even the all-zero buffer that `memset`
initialised passes the check. -/
theorem C1_otpHeaderCheck :
    otpBufEx.take 4 ≠ [80, 88, 52, 0] ∧ otpHeaderRejected otpBufEx = false ∧
    otpHeaderRejected (List.replicate 512 0) = false :=
  ⟨by decide, by decide, by decide⟩

/-- C5: `getTotalUpstream`/`getTotalDownstream` divide by
`(now - connectionStart) / 1000` unconditionally; 999 ms after the connection
started this divisor is zero, so the division is performed with a zero divisor
(undefined behaviour in the C++ source), contradicting the claim that the
divisor is nonzero whenever the division is performed. -/
theorem C5_rateDivisorZero :
    elapsedDivisor 999 0 = 0 ∧
    (∀ bits : Nat, getTotalUpstream bits 999 0 = bits / 0) ∧
    (∀ bits : Nat, getTotalDownstream bits 999 0 = bits / 0) :=
  ⟨rfl, fun _ => rfl, fun _ => rfl⟩

/-- C6: for every chunk of at most 60 bytes, the encoded PROGRAM_MULTI frame
has length 3 + chunk length, starts with 0x27, carries the chunk length as its
second byte, contains the chunk bytes unchanged, and ends with 0x20. -/
theorem C6_programMultiFrame (buf : List Nat) (h : buf.length ≤ 60) :
    (programMultiFrame buf).length = 3 + buf.length ∧
    (programMultiFrame buf)[0]? = some 0x27 ∧
    (programMultiFrame buf)[1]? = some buf.length ∧
    (programMultiFrame buf).drop 2 = buf ++ [0x20] ∧
    (programMultiFrame buf).getLast? = some 0x20 := by
  have hm : buf.length % 256 = buf.length := Nat.mod_eq_of_lt (by omega)
  have hsplit : programMultiFrame buf = (0x27 :: (buf.length % 256) :: buf) ++ [0x20] := by
    simp [programMultiFrame]
  refine ⟨?_, rfl, ?_, rfl, ?_⟩
  · simp only [programMultiFrame, List.length_cons, List.length_append,
      List.length_singleton, List.length_nil]
    omega
  · simp [programMultiFrame, hm]
  · rw [hsplit, List.getLast?_concat]

/-- Witness for C6 at the concrete chunk `[1,2,3]`. -/
theorem C6_programMultiFrame_witness :
    (programMultiFrame [1, 2, 3]).length = 3 + 3 ∧
    (programMultiFrame [1, 2, 3])[0]? = some 0x27 ∧
    (programMultiFrame [1, 2, 3])[1]? = some 3 ∧
    (programMultiFrame [1, 2, 3]).drop 2 = [1, 2, 3] ++ [0x20] ∧
    (programMultiFrame [1, 2, 3]).getLast? = some 0x20 :=
  C6_programMultiFrame [1, 2, 3] (by decide)

/-- C8: when the decompressed blob has exactly the declared image size the
decode succeeds and stores the payload padded with 0xFF to the smallest
multiple of 4 not below the image size, the original bytes unchanged; when the
decompressed length differs the decode fails and no payload is produced, so
programming is never started. -/
theorem C8_loadFileDecode (u : List Nat) (n : Nat) :
    (u.length = n →
      ∃ p, loadFileDecode u n = some p ∧ p.length % 4 = 0 ∧ n ≤ p.length ∧
        p.length < n + 4 ∧ p.take n = u ∧
        p.drop n = List.replicate (p.length - n) 255) ∧
    (u.length ≠ n → loadFileDecode u n = none) := by
  constructor
  · intro h
    subst h
    refine ⟨padFF u, by rw [loadFileDecode, if_pos rfl], ?_, ?_, ?_, ?_, ?_⟩ <;>
      rw [padFF_eq u]
    · simp only [List.length_append, List.length_replicate]
      omega
    · simp only [List.length_append, List.length_replicate]
      omega
    · simp only [List.length_append, List.length_replicate]
      omega
    · exact List.take_left u _
    · rw [List.drop_left]
      have hc : (u ++ List.replicate ((4 - u.length % 4) % 4) 255).length - u.length
          = (4 - u.length % 4) % 4 := by
        simp only [List.length_append, List.length_replicate]
        omega
      rw [hc]
  · intro h
    rw [loadFileDecode, if_neg h]

/-- Witness for C8: a 5-byte payload with matching size decodes and is padded
to 8 bytes; with a mismatched declared size of 6 the decode fails. -/
theorem C8_loadFileDecode_witness :
    (∃ p, loadFileDecode [1, 2, 3, 4, 5] 5 = some p ∧ p.length % 4 = 0 ∧
      5 ≤ p.length ∧ p.length < 5 + 4 ∧ p.take 5 = [1, 2, 3, 4, 5] ∧
      p.drop 5 = List.replicate (p.length - 5) 255) ∧
    loadFileDecode [1, 2, 3, 4, 5] 6 = none :=
  ⟨(C8_loadFileDecode [1, 2, 3, 4, 5] 5).1 rfl,
   (C8_loadFileDecode [1, 2, 3, 4, 5] 6).2 (by decide)⟩

/-- Helper: with the serial accumulator and the bytes arriving before the
timeout merged into one stream, `readBytes 2` succeeds exactly when at least
two bytes are available and then delivers the first two of them. -/
theorem readBytes_two (sb arr : List Nat) :
    readBytes 2 sb arr =
      if 2 ≤ (sb ++ arr).length then ((2 : Int), (sb ++ arr).take 2)
      else (-1, []) := by
  unfold readBytes
  by_cases h1 : 2 ≤ sb.length
  · rw [if_pos h1, if_pos (by simp only [List.length_append]; omega)]
    rw [List.take_append_eq_append_take]
    have h0 : 2 - sb.length = 0 := by omega
    rw [h0]
    simp
  · rw [if_neg h1]
    rfl

/-- C7: `get_sync` returns 0 exactly when at least two bytes are obtained
within the timeout and the first two of them are 0x12, 0x10; any other pair or
a short read yields failure. -/
theorem C7_get_sync (sb arr : List Nat) :
    get_sync sb arr = 0 ↔
      2 ≤ (sb ++ arr).length ∧ (sb ++ arr).take 2 = [0x12, 0x10] := by
  unfold get_sync
  rw [readBytes_two]
  by_cases h : 2 ≤ (sb ++ arr).length
  · rw [if_pos h]
    obtain ⟨a, b, t, he⟩ : ∃ a b t, sb ++ arr = a :: b :: t := by
      cases hl : sb ++ arr with
      | nil => rw [hl] at h; simp at h
      | cons a tl =>
        cases tl with
        | nil => rw [hl] at h; simp at h
        | cons b t => exact ⟨a, b, t, rfl⟩
    rw [he] at h ⊢
    by_cases ha : a = 0x12 <;> by_cases hb : b = 0x10 <;>
      simp [ha, hb, List.take_succ_cons]
  · rw [if_neg h]
    simp only [List.length_append] at h
    simp [h]

/-- C2 counterexample: running the programming loop on a 64-byte payload with
the sync outcomes `fail, ok, ok, fail, ok, ok, fail, ok, ok, ok` (three chunk
failures, each separated by a successful chunk and a successful re-erase)
aborts fatally, although the failures are never consecutive: the variant that
follows the claimed semantics (counter reset by any successful chunk) finishes
the upload on exactly the same outcomes. -/
theorem C2_counterexample :
    (progRun payload64 0 0 0 syncsEx).1 = ProgResult.fatalProgram ∧
    (progRunSpecConsecutive payload64 0 0 0 syncsEx).1 = ProgResult.finished :=
  ⟨by decide, by decide⟩

/-- C3 counterexample: in the serial-number loop a short read on the chunk at
address 0 neither aborts the attempt nor stops that address from being issued
again: the address trace is `0, 0, 4, 8` and the loop completes (with the
byte-reversed serial number) despite the failure. -/
theorem C3_counterexample :
    (snLoop 0 (List.replicate 12 0)
      [SnEvt.shortRead, SnEvt.chunk [1, 2, 3, 4] true, SnEvt.chunk [5, 6, 7, 8] true,
        SnEvt.chunk [9, 10, 11, 12] true]).2 = [0, 0, 4, 8] ∧
    (snLoop 0 (List.replicate 12 0)
      [SnEvt.shortRead, SnEvt.chunk [1, 2, 3, 4] true, SnEvt.chunk [5, 6, 7, 8] true,
        SnEvt.chunk [9, 10, 11, 12] true]).1 =
      SnResult.done [4, 3, 2, 1, 8, 7, 6, 5, 12, 11, 10, 9] :=
  ⟨by decide, by decide⟩

/-- C4 counterexample: when the initial ERASE sync times out the phase ends
fatally, but the only action performed is writing the erase frame: the device
handle is not closed and the temporary file is not released. -/
theorem C4_counterexample :
    (eraseProgramPhase [1, 2, 3, 4] []).1 = ProgResult.fatalEraseTimeout ∧
    Action.closePort ∉ (eraseProgramPhase [1, 2, 3, 4] []).2 ∧
    Action.deleteTempFile ∉ (eraseProgramPhase [1, 2, 3, 4] []).2 :=
  ⟨by decide, by decide, by decide⟩

/-- Helper: the serial-number loop abandons the upload attempt only when a bad
sync footer occurs among its events; short reads never cause the abort. -/
theorem snLoop_abort_badFooter (evts : List SnEvt) :
    ∀ i snbuf, ((snLoop i snbuf evts).1).isAbort = true →
      ∃ c, SnEvt.chunk c false ∈ evts := by
  induction evts with
  | nil =>
    intro i snbuf h
    by_cases hi : i < 12 <;> simp [snLoop, hi, SnResult.isAbort] at h
  | cons e rest ih =>
    intro i snbuf h
    by_cases hi : i < 12
    · cases e with
      | shortRead =>
        rw [snLoop.eq_def, if_pos hi] at h
        obtain ⟨c, hc⟩ := ih i snbuf h
        exact ⟨c, List.mem_cons_of_mem _ hc⟩
      | chunk bytes ok =>
        rw [snLoop.eq_def, if_pos hi] at h
        cases ok with
        | true =>
          obtain ⟨c, hc⟩ := ih (i + 4) (setChunkRev snbuf i bytes) h
          exact ⟨c, List.mem_cons_of_mem _ hc⟩
        | false => exact ⟨bytes, List.mem_cons_self _ _⟩
    · rw [snLoop.eq_def, if_neg hi] at h
      simp [SnResult.isAbort] at h

/-- C3 (amended): in the serial-number read loop only a bad sync footer aborts
the upload attempt; a short read does not abort — the driver re-issues the very
same chunk address (`i -= 4; continue;`) — and every abort is caused by some
bad-footer event. -/
theorem C3_snLoop_amended (i : Nat) (snbuf : List Nat) (evts : List SnEvt)
    (b : List Nat) (h : i < 12) :
    ((snLoop i snbuf (SnEvt.chunk b false :: evts)).1).isAbort = true ∧
    (snLoop i snbuf (SnEvt.shortRead :: evts)).2 = i :: (snLoop i snbuf evts).2 ∧
    (((snLoop i snbuf evts).1).isAbort = true → ∃ c, SnEvt.chunk c false ∈ evts) := by
  refine ⟨?_, ?_, snLoop_abort_badFooter evts i snbuf⟩
  · rw [snLoop.eq_def, if_pos h]
    rfl
  · conv_lhs => rw [snLoop.eq_def, if_pos h]

/-- Witness for C3 (amended) at address 0: a bad footer aborts at once, a
short read prepends a re-issue of address 0, and the abort characterization
instantiates at the empty event list. -/
theorem C3_snLoop_amended_witness :
    ((snLoop 0 (List.replicate 12 0) [SnEvt.chunk [9, 9, 9, 9] false]).1).isAbort = true ∧
    (snLoop 0 (List.replicate 12 0) [SnEvt.shortRead]).2 =
      0 :: (snLoop 0 (List.replicate 12 0) []).2 ∧
    (((snLoop 0 (List.replicate 12 0) []).1).isAbort = true →
      ∃ c, SnEvt.chunk c false ∈ ([] : List SnEvt)) :=
  C3_snLoop_amended 0 (List.replicate 12 0) [] [9, 9, 9, 9] (by decide)

/-- Unfolding of `progRun` on a successful chunk sync. -/
theorem progRun_true (payload : List Nat) (pos failure counter : Nat)
    (rest : List Bool) :
    progRun payload pos failure counter (true :: rest) =
      if pos < payload.length then
        if ((payload.drop pos).take 60).length > 0 then
          ((progRun payload (pos + ((payload.drop pos).take 60).length) failure
              (counter + 1) rest).1,
            ([Action.clearPort,
              Action.writeFrame (programMultiFrame ((payload.drop pos).take 60))] ++
              (if counter % 50 = 0 then
                [Action.emitProgress (pos + ((payload.drop pos).take 60).length)
                  payload.length]
               else [])) ++
            (progRun payload (pos + ((payload.drop pos).take 60).length) failure
              (counter + 1) rest).2)
        else (ProgResult.readError,
          [Action.closePort, Action.closeTempFile, Action.deleteTempFile, Action.deletePort])
      else (ProgResult.finished,
        [Action.writeFrame rebootFrame, Action.closePort, Action.closeTempFile,
          Action.deleteTempFile, Action.deletePort, Action.emitDone]) := rfl

/-- Unfolding of `progRun` on a failed chunk sync followed by a successful
re-erase sync. -/
theorem progRun_false_true (payload : List Nat) (pos failure counter : Nat)
    (rest2 : List Bool) :
    progRun payload pos failure counter (false :: true :: rest2) =
      if pos < payload.length then
        if ((payload.drop pos).take 60).length > 0 then
          if failure + 1 > 2 then
            (ProgResult.fatalProgram,
              [Action.clearPort,
                Action.writeFrame (programMultiFrame ((payload.drop pos).take 60)),
                Action.emitError, Action.closePort, Action.closeTempFile,
                Action.deleteTempFile])
          else
            ((progRun payload 0 (failure + 1) counter rest2).1,
              [Action.clearPort,
                Action.writeFrame (programMultiFrame ((payload.drop pos).take 60)),
                Action.clearPort, Action.writeFrame eraseFrame] ++
              (progRun payload 0 (failure + 1) counter rest2).2)
        else (ProgResult.readError,
          [Action.closePort, Action.closeTempFile, Action.deleteTempFile, Action.deletePort])
      else (ProgResult.finished,
        [Action.writeFrame rebootFrame, Action.closePort, Action.closeTempFile,
          Action.deleteTempFile, Action.deletePort, Action.emitDone]) := rfl

/-- Unfolding of `progRun` on a failed chunk sync followed by a failed
re-erase sync. -/
theorem progRun_false_false (payload : List Nat) (pos failure counter : Nat)
    (rest2 : List Bool) :
    progRun payload pos failure counter (false :: false :: rest2) =
      if pos < payload.length then
        if ((payload.drop pos).take 60).length > 0 then
          if failure + 1 > 2 then
            (ProgResult.fatalProgram,
              [Action.clearPort,
                Action.writeFrame (programMultiFrame ((payload.drop pos).take 60)),
                Action.emitError, Action.closePort, Action.closeTempFile,
                Action.deleteTempFile])
          else
            (ProgResult.fatalEraseTimeout,
              [Action.clearPort,
                Action.writeFrame (programMultiFrame ((payload.drop pos).take 60)),
                Action.clearPort, Action.writeFrame eraseFrame])
        else (ProgResult.readError,
          [Action.closePort, Action.closeTempFile, Action.deleteTempFile, Action.deletePort])
      else (ProgResult.finished,
        [Action.writeFrame rebootFrame, Action.closePort, Action.closeTempFile,
          Action.deleteTempFile, Action.deletePort, Action.emitDone]) := rfl

/-- Unfolding of `progRun` on a failed chunk sync with the stream exhausted:
the re-erase sync times out as well. -/
theorem progRun_false_nil (payload : List Nat) (pos failure counter : Nat) :
    progRun payload pos failure counter [false] =
      if pos < payload.length then
        if ((payload.drop pos).take 60).length > 0 then
          if failure + 1 > 2 then
            (ProgResult.fatalProgram,
              [Action.clearPort,
                Action.writeFrame (programMultiFrame ((payload.drop pos).take 60)),
                Action.emitError, Action.closePort, Action.closeTempFile,
                Action.deleteTempFile])
          else
            (ProgResult.fatalEraseTimeout,
              [Action.clearPort,
                Action.writeFrame (programMultiFrame ((payload.drop pos).take 60)),
                Action.clearPort, Action.writeFrame eraseFrame])
        else (ProgResult.readError,
          [Action.closePort, Action.closeTempFile, Action.deleteTempFile, Action.deletePort])
      else (ProgResult.finished,
        [Action.writeFrame rebootFrame, Action.closePort, Action.closeTempFile,
          Action.deleteTempFile, Action.deletePort, Action.emitDone]) := rfl

/-- Unfolding of `progRun` on an exhausted sync stream (timeout). -/
theorem progRun_nil (payload : List Nat) (pos failure counter : Nat) :
    progRun payload pos failure counter [] =
      if pos < payload.length then
        if ((payload.drop pos).take 60).length > 0 then
          if failure + 1 > 2 then
            (ProgResult.fatalProgram,
              [Action.clearPort,
                Action.writeFrame (programMultiFrame ((payload.drop pos).take 60)),
                Action.emitError, Action.closePort, Action.closeTempFile,
                Action.deleteTempFile])
          else
            (ProgResult.fatalEraseTimeout,
              [Action.clearPort,
                Action.writeFrame (programMultiFrame ((payload.drop pos).take 60)),
                Action.clearPort, Action.writeFrame eraseFrame])
        else (ProgResult.readError,
          [Action.closePort, Action.closeTempFile, Action.deleteTempFile, Action.deletePort])
      else (ProgResult.finished,
        [Action.writeFrame rebootFrame, Action.closePort, Action.closeTempFile,
          Action.deleteTempFile, Action.deletePort, Action.emitDone]) := rfl

/-- Helper: inside the programming loop the chunk read at a position before
the end of the payload is never empty. -/
theorem chunk_len_pos (payload : List Nat) (pos : Nat) (hpos : pos < payload.length) :
    ((payload.drop pos).take 60).length > 0 := by
  simp only [List.length_take, List.length_drop]
  omega

/-- Unfolding of `progRun` once the payload is exhausted: REBOOT is sent and
everything is cleaned up. -/
theorem progRun_notpos (payload : List Nat) (pos failure counter : Nat)
    (t : List Bool) (hpos : ¬ pos < payload.length) :
    progRun payload pos failure counter t =
      (ProgResult.finished,
        [Action.writeFrame rebootFrame, Action.closePort, Action.closeTempFile,
          Action.deleteTempFile, Action.deletePort, Action.emitDone]) := by
  cases t with
  | nil => rw [progRun_nil, if_neg hpos]
  | cons s t2 =>
    cases s
    · cases t2 with
      | nil => rw [progRun_false_nil, if_neg hpos]
      | cons s2 t3 =>
        cases s2
        · rw [progRun_false_false, if_neg hpos]
        · rw [progRun_false_true, if_neg hpos]
    · rw [progRun_true, if_neg hpos]

/-- Helper: a fatal program-chunk abort needs at least two explicit chunk-sync
failures on top of the incoming failure counter (the third failure may also be
the final sync timeout): the counter accumulates over the whole session. -/
theorem progRun_fatal_count (payload : List Nat) (pos failure counter : Nat)
    (syncs : List Bool) :
    (progRun payload pos failure counter syncs).1 = ProgResult.fatalProgram →
      2 ≤ failure + syncs.count false := by
  induction pos, failure, counter, syncs using progRun.induct payload with
  | case1 pos failure counter hpos buf hbuf rest ih =>
    have hb : ((payload.drop pos).take 60).length > 0 := hbuf
    intro h
    rw [progRun_true] at h
    simp only [if_pos hpos, if_pos hb] at h
    have := ih h
    simp only [List.count_cons]
    omega
  | case2 pos failure counter hpos buf hbuf rest hf =>
    intro _
    simp only [List.count_cons]
    omega
  | case3 pos failure counter hpos buf hbuf hf rest2 ih =>
    have hb : ((payload.drop pos).take 60).length > 0 := hbuf
    intro h
    rw [progRun_false_true] at h
    simp only [if_pos hpos, if_pos hb, if_neg hf] at h
    have := ih h
    simp [List.count_cons]
    omega
  | case4 pos failure counter hpos buf hbuf rest hf hne =>
    have hb : ((payload.drop pos).take 60).length > 0 := hbuf
    intro h
    rcases rest with _ | ⟨b, rest2⟩
    · rw [progRun_false_nil] at h
      simp [if_pos hpos, if_pos hb, if_neg hf] at h
    · cases b
      · rw [progRun_false_false] at h
        simp [if_pos hpos, if_pos hb, if_neg hf] at h
      · exact absurd rfl (hne rest2)
  | case5 pos failure counter hpos buf hbuf hf =>
    intro _
    simp only [List.count_nil]
    omega
  | case6 pos failure counter hpos buf hbuf hf =>
    have hb : ((payload.drop pos).take 60).length > 0 := hbuf
    intro h
    rw [progRun_nil] at h
    simp [if_pos hpos, if_pos hb, if_neg hf] at h
  | case7 t pos failure counter hpos buf hbuf =>
    exact absurd (chunk_len_pos payload pos hpos) hbuf
  | case8 t pos failure counter hpos =>
    intro h
    rw [progRun_notpos payload pos failure counter t hpos] at h
    simp at h

/-- Helper: along the programming loop, a fatal program-budget abort always
performs the port close and the temp-file release, while an erase-timeout
abort performs neither. -/
theorem progRun_cleanup (payload : List Nat) (pos failure counter : Nat)
    (syncs : List Bool) :
    ((progRun payload pos failure counter syncs).1 = ProgResult.fatalProgram →
      Action.closePort ∈ (progRun payload pos failure counter syncs).2 ∧
      Action.deleteTempFile ∈ (progRun payload pos failure counter syncs).2) ∧
    ((progRun payload pos failure counter syncs).1 = ProgResult.fatalEraseTimeout →
      Action.closePort ∉ (progRun payload pos failure counter syncs).2 ∧
      Action.deleteTempFile ∉ (progRun payload pos failure counter syncs).2) := by
  induction pos, failure, counter, syncs using progRun.induct payload with
  | case1 pos failure counter hpos buf hbuf rest ih =>
    have hb : ((payload.drop pos).take 60).length > 0 := hbuf
    rw [progRun_true]
    simp only [if_pos hpos, if_pos hb]
    constructor
    · intro h
      exact ⟨List.mem_append_right _ (ih.1 h).1, List.mem_append_right _ (ih.1 h).2⟩
    · intro h
      obtain ⟨h1, h2⟩ := ih.2 h
      constructor
      · intro hmem
        rcases List.mem_append.1 hmem with hm | hm
        · rcases List.mem_append.1 hm with hm2 | hm2
          · simp at hm2
          · by_cases hc : counter % 50 = 0 <;> simp [hc] at hm2
        · exact h1 hm
      · intro hmem
        rcases List.mem_append.1 hmem with hm | hm
        · rcases List.mem_append.1 hm with hm2 | hm2
          · simp at hm2
          · by_cases hc : counter % 50 = 0 <;> simp [hc] at hm2
        · exact h2 hm
  | case2 pos failure counter hpos buf hbuf rest hf =>
    have hb : ((payload.drop pos).take 60).length > 0 := hbuf
    rcases rest with _ | ⟨b, rest2⟩
    · rw [progRun_false_nil]
      simp [if_pos hpos, if_pos hb, if_pos hf]
    · cases b
      · rw [progRun_false_false]
        simp [if_pos hpos, if_pos hb, if_pos hf]
      · rw [progRun_false_true]
        simp [if_pos hpos, if_pos hb, if_pos hf]
  | case3 pos failure counter hpos buf hbuf hf rest2 ih =>
    have hb : ((payload.drop pos).take 60).length > 0 := hbuf
    rw [progRun_false_true]
    simp only [if_pos hpos, if_pos hb, if_neg hf]
    constructor
    · intro h
      exact ⟨List.mem_append_right _ (ih.1 h).1, List.mem_append_right _ (ih.1 h).2⟩
    · intro h
      obtain ⟨h1, h2⟩ := ih.2 h
      constructor
      · intro hmem
        rcases List.mem_append.1 hmem with hm | hm
        · simp at hm
        · exact h1 hm
      · intro hmem
        rcases List.mem_append.1 hmem with hm | hm
        · simp at hm
        · exact h2 hm
  | case4 pos failure counter hpos buf hbuf rest hf hne =>
    have hb : ((payload.drop pos).take 60).length > 0 := hbuf
    rcases rest with _ | ⟨b, rest2⟩
    · rw [progRun_false_nil]
      simp [if_pos hpos, if_pos hb, if_neg hf]
    · cases b
      · rw [progRun_false_false]
        simp [if_pos hpos, if_pos hb, if_neg hf]
      · exact absurd rfl (hne rest2)
  | case5 pos failure counter hpos buf hbuf hf =>
    have hb : ((payload.drop pos).take 60).length > 0 := hbuf
    rw [progRun_nil]
    simp [if_pos hpos, if_pos hb, if_pos hf]
  | case6 pos failure counter hpos buf hbuf hf =>
    have hb : ((payload.drop pos).take 60).length > 0 := hbuf
    rw [progRun_nil]
    simp [if_pos hpos, if_pos hb, if_neg hf]
  | case7 t pos failure counter hpos buf hbuf =>
    exact absurd (chunk_len_pos payload pos hpos) hbuf
  | case8 t pos failure counter hpos =>
    rw [progRun_notpos payload pos failure counter t hpos]
    simp

/-- C4 (amended): a fatal exhaustion of the program-chunk failure budget does
close the device handle and release the temporary file before surfacing the
error, but a fatal erase-sync timeout — both the initial one and the one on the
recovery path — returns without closing the device handle or releasing the
temporary file. -/
theorem C4_eraseProgramPhase_cleanup (payload : List Nat) (syncs : List Bool) :
    ((eraseProgramPhase payload syncs).1 = ProgResult.fatalProgram →
      Action.closePort ∈ (eraseProgramPhase payload syncs).2 ∧
      Action.deleteTempFile ∈ (eraseProgramPhase payload syncs).2) ∧
    ((eraseProgramPhase payload syncs).1 = ProgResult.fatalEraseTimeout →
      Action.closePort ∉ (eraseProgramPhase payload syncs).2 ∧
      Action.deleteTempFile ∉ (eraseProgramPhase payload syncs).2) := by
  cases syncs with
  | nil => simp [eraseProgramPhase]
  | cons s rest =>
    cases s
    · simp [eraseProgramPhase]
    · have h := progRun_cleanup payload 0 0 0 rest
      simp only [eraseProgramPhase]
      constructor
      · intro hf
        obtain ⟨h1, h2⟩ := h.1 hf
        simp [h1, h2]
      · intro hf
        obtain ⟨h1, h2⟩ := h.2 hf
        simp [h1, h2, eraseFrame]

/-- Witness for C4 (amended): with payload `[1]`, the sync stream
`ok, fail, ok, fail, ok, fail` exhausts the failure budget and the trace does
contain the close and release actions; the empty sync stream is an initial
erase timeout and its trace contains neither. -/
theorem C4_eraseProgramPhase_cleanup_witness :
    (Action.closePort ∈ (eraseProgramPhase [1] [true, false, true, false, true, false]).2 ∧
     Action.deleteTempFile ∈
       (eraseProgramPhase [1] [true, false, true, false, true, false]).2) ∧
    (Action.closePort ∉ (eraseProgramPhase [1] ([] : List Bool)).2 ∧
     Action.deleteTempFile ∉ (eraseProgramPhase [1] ([] : List Bool)).2) :=
  ⟨(C4_eraseProgramPhase_cleanup [1] [true, false, true, false, true, false]).1 (by decide),
   (C4_eraseProgramPhase_cleanup [1] []).2 (by decide)⟩

/-- C2 (amended): the chunk-failure counter of the programming loop is
cumulative over the whole session, not consecutive: a successful chunk leaves
it unchanged rather than resetting it, a chunk failure increments it, on the
third failure overall (counter past 2) the upload aborts as fatal even when
successes came in between, and on a recoverable failure a fresh ERASE is
issued and programming restarts from offset 0. -/
theorem C2_progRun_amended (payload : List Nat) (pos failure counter : Nat)
    (syncs rest : List Bool) (hpos : pos < payload.length) :
    ((progRun payload pos failure counter syncs).1 = ProgResult.fatalProgram →
      2 ≤ failure + syncs.count false) ∧
    ((progRun payload pos failure counter (true :: rest)).1 =
      (progRun payload (pos + ((payload.drop pos).take 60).length) failure
        (counter + 1) rest).1) ∧
    (2 ≤ failure →
      (progRun payload pos failure counter (false :: rest)).1 =
        ProgResult.fatalProgram) ∧
    (failure < 2 → ∀ rest2, rest = true :: rest2 →
      (progRun payload pos failure counter (false :: rest)).1 =
        (progRun payload 0 (failure + 1) counter rest2).1) := by
  have hb : ((payload.drop pos).take 60).length > 0 := chunk_len_pos payload pos hpos
  refine ⟨progRun_fatal_count payload pos failure counter syncs, ?_, ?_, ?_⟩
  · rw [progRun_true]
    simp [if_pos hpos, if_pos hb]
  · intro hf
    rcases rest with _ | ⟨b, rest2⟩
    · rw [progRun_false_nil]
      simp [if_pos hpos, if_pos hb, if_pos (show failure + 1 > 2 by omega)]
    · cases b
      · rw [progRun_false_false]
        simp [if_pos hpos, if_pos hb, if_pos (show failure + 1 > 2 by omega)]
      · rw [progRun_false_true]
        simp [if_pos hpos, if_pos hb, if_pos (show failure + 1 > 2 by omega)]
  · intro hf rest2 hrest
    subst hrest
    rw [progRun_false_true]
    simp [if_pos hpos, if_pos hb, if_neg (show ¬ failure + 1 > 2 by omega)]

/-- Witness for C2 (amended) at payload `[5]`, failure counter already at 2:
the sync stream `[false]` yields an immediate fatal abort. -/
theorem C2_progRun_amended_witness :
    ((progRun [5] 0 2 0 [false]).1 = ProgResult.fatalProgram →
      2 ≤ 2 + ([false] : List Bool).count false) ∧
    ((progRun [5] 0 2 0 (true :: [true])).1 =
      (progRun [5] (0 + ((([5] : List Nat).drop 0).take 60).length) 2
        (0 + 1) [true]).1) ∧
    (2 ≤ 2 →
      (progRun [5] 0 2 0 (false :: [true])).1 = ProgResult.fatalProgram) ∧
    (2 < 2 → ∀ rest2, [true] = true :: rest2 →
      (progRun [5] 0 2 0 (false :: [true])).1 =
        (progRun [5] 0 (2 + 1) 0 rest2).1) :=
  C2_progRun_amended [5] 0 2 0 [false] [true] (by decide)

/-- C10: `setPortName` returns false for every input; in particular, even when
it accepts a new non-empty distinct port name — storing the trimmed name and
applying the baud rate remembered for it in the per-port map — it still
returns false (the local `accepted` flag is never set to true). -/
theorem C10_setPortName (st : SLState) (p : List Nat)
    (h1 : p ≠ st.portName) (h2 : 0 < (qTrimmed p).length) :
    (∀ st2 : SLState, ∀ q : List Nat, (setPortName st2 q).1 = false) ∧
    (setPortName st p).2.portName = qTrimmed p ∧
    (∀ r, lookupMap st.portBaudMap (qTrimmed p) = some r →
      (setPortName st p).2.baud = r) := by
  refine ⟨?_, ?_, ?_⟩
  · intro st2 q
    unfold setPortName
    by_cases hc : q ≠ st2.portName ∧ 0 < (qTrimmed q).length
    · rw [if_pos hc]
      rcases hl : lookupMap st2.portBaudMap (qTrimmed q) with _ | r <;> rfl
    · rw [if_neg hc]
  · unfold setPortName
    rw [if_pos ⟨h1, h2⟩]
    rcases hl : lookupMap st.portBaudMap (qTrimmed p) with _ | r
    · rfl
    · show (setBaudRate { st with portName := qTrimmed p } r).2.portName = qTrimmed p
      unfold setBaudRate
      split
      · rfl
      · rfl
  · intro r hr
    unfold setPortName
    rw [if_pos ⟨h1, h2⟩, hr]
    show (setBaudRate { st with portName := qTrimmed p } r).2.baud = r
    unfold setBaudRate
    split
    next hne => rfl
    next hne => exact (not_ne_iff.mp hne).symm

/-- Witness for C10 at a concrete state: port name `"b"`, stored map entry
`"a" -> 115200`, renamed to `" a "` (trimmed to `"a"`). -/
theorem C10_setPortName_witness :
    (∀ st2 : SLState, ∀ q : List Nat, (setPortName st2 q).1 = false) ∧
    (setPortName ⟨[98], 57600, [([97], 115200)], false, true⟩ [32, 97, 32]).2.portName =
      qTrimmed [32, 97, 32] ∧
    (∀ r, lookupMap [([97], 115200)] (qTrimmed [32, 97, 32]) = some r →
      (setPortName ⟨[98], 57600, [([97], 115200)], false, true⟩ [32, 97, 32]).2.baud = r) :=
  C10_setPortName ⟨[98], 57600, [([97], 115200)], false, true⟩ [32, 97, 32]
    (by decide) (by decide)

/-! ## Decimal round-trip lemmas for the baud-map serialization -/

theorem natDigits_ne_nil (n : Nat) : natDigits n ≠ [] := by
  rw [natDigits]
  split <;> simp

theorem natDigits_lt_ten (n : Nat) : ∀ d ∈ natDigits n, d < 10 := by
  induction n using Nat.strong_induction_on with
  | _ n ih =>
    intro d hd
    rw [natDigits] at hd
    split at hd
    next h =>
      simp only [List.mem_singleton] at hd
      omega
    next h =>
      rcases List.mem_append.1 hd with hm | hm
      · exact ih (n / 10) (Nat.div_lt_self (by omega) (by omega)) d hm
      · simp only [List.mem_singleton] at hm
        omega

theorem natDigits_foldl_gen (n : Nat) :
    ∀ a : Nat, (natDigits n).foldl (fun x d => x * 10 + d) a
      = a * 10 ^ (natDigits n).length + n := by
  induction n using Nat.strong_induction_on with
  | _ n ih =>
    intro a
    rw [natDigits]
    split
    next h =>
      simp [pow_one]
    next h =>
      rw [List.foldl_append, List.length_append]
      rw [ih (n / 10) (Nat.div_lt_self (by omega) (by omega)) a]
      simp only [List.foldl_cons, List.foldl_nil, List.length_cons, List.length_nil,
        Nat.zero_add]
      rw [pow_succ]
      generalize (10 : Nat) ^ (natDigits (n / 10)).length = t
      calc (a * t + n / 10) * 10 + n % 10
          = a * (t * 10) + (10 * (n / 10) + n % 10) := by ring
        _ = a * (t * 10) + n := by rw [Nat.div_add_mod]

theorem parseNatChars_natChars (n : Nat) : parseNatChars (natChars n) = n := by
  unfold parseNatChars natChars
  rw [List.foldl_map]
  simp only [Nat.add_sub_cancel]
  have := natDigits_foldl_gen n 0
  simpa using this

theorem natChars_mem (n : Nat) : ∀ c ∈ natChars n, 48 ≤ c ∧ c ≤ 57 := by
  intro c hc
  unfold natChars at hc
  obtain ⟨d, hd, rfl⟩ := List.mem_map.1 hc
  have := natDigits_lt_ten n d hd
  omega

theorem natChars_ne_nil (n : Nat) : natChars n ≠ [] := by
  unfold natChars
  simp [natDigits_ne_nil n]

theorem natChars_all_digit (n : Nat) : (natChars n).all isDigitChar = true := by
  rw [List.all_eq_true]
  intro c hc
  have := natChars_mem n c hc
  unfold isDigitChar
  simp only [Bool.and_eq_true, decide_eq_true_eq]
  omega

theorem qsNumber_mem (v : Int) : ∀ c ∈ qsNumber v, c = 45 ∨ (48 ≤ c ∧ c ≤ 57) := by
  intro c hc
  unfold qsNumber at hc
  split at hc
  · rcases List.mem_cons.1 hc with h | h
    · left; exact h
    · right; exact natChars_mem _ c h
  · right; exact natChars_mem _ c hc

theorem qToInt_qsNumber (v : Int) : qToInt (qsNumber v) = v := by
  by_cases hv : v < 0
  · unfold qsNumber
    rw [if_pos hv]
    unfold qToInt
    simp only [List.head?_cons, List.tail_cons]
    rw [if_true]
    have hne : (natChars v.natAbs).isEmpty = false := by
      simp [List.isEmpty_iff, natChars_ne_nil]
    rw [if_pos (by rw [hne, natChars_all_digit]; rfl)]
    rw [parseNatChars_natChars]
    omega
  · unfold qsNumber
    rw [if_neg hv]
    obtain ⟨c, cs, hcons⟩ := List.exists_cons_of_ne_nil (natChars_ne_nil v.toNat)
    have hc48 : 48 ≤ c := by
      have := natChars_mem v.toNat c (by rw [hcons]; exact List.mem_cons_self _ _)
      omega
    unfold qToInt
    rw [hcons]
    rw [if_neg (by simp only [List.head?_cons, Option.some.injEq]; omega)]
    rw [if_pos (by
      rw [← hcons]
      have hne : (natChars v.toNat).isEmpty = false := by
        simp [List.isEmpty_iff, natChars_ne_nil]
      rw [hne, natChars_all_digit]; rfl)]
    rw [← hcons, parseNatChars_natChars]
    omega

/-! ## Serialization lemmas and the C9 round trip -/

theorem no58_entry_key (k : List Nat) (v : Int) (hk : (58 : Nat) ∉ k) :
    (entryChars (k, v)).splitOn 58 = [k, qsNumber v] := by
  show (k ++ 58 :: qsNumber v).splitOnP (fun x => x == 58) = [k, qsNumber v]
  have hfirst := List.splitOnP_first (fun x => x == (58 : Nat)) k
    (fun x hx => by simp only [beq_iff_eq]; exact fun he => hk (he ▸ hx))
    58 (by simp) (qsNumber v)
  rw [hfirst]
  have hsingle : (qsNumber v).splitOnP (fun x => x == (58 : Nat)) = [qsNumber v] := by
    rw [List.splitOnP_eq_single]
    intro y hy
    simp only [beq_iff_eq]
    rcases qsNumber_mem v y hy with h | h <;> omega
  rw [hsingle]

theorem no44_entry (kv : List Nat × Int) (hk : (44 : Nat) ∉ kv.1) :
    (44 : Nat) ∉ entryChars kv := by
  unfold entryChars
  intro h
  rcases List.mem_append.1 h with h | h
  · exact hk h
  · rcases List.mem_cons.1 h with h | h
    · omega
    · rcases qsNumber_mem kv.2 44 h with h | h <;> omega

theorem fullSer_shift (m : List (List Nat × Int)) :
    ∀ acc : List Nat,
      m.foldl (fun a kv => a ++ entryChars kv ++ [44]) acc = acc ++ fullSer m := by
  induction m with
  | nil =>
    intro acc
    simp [fullSer]
  | cons kv t ih =>
    intro acc
    simp only [fullSer, List.foldl_cons] at *
    rw [ih (acc ++ entryChars kv ++ [44]), ih ([] ++ entryChars kv ++ [44])]
    simp [List.append_assoc]

theorem fullSer_cons (kv : List Nat × Int) (t : List (List Nat × Int)) :
    fullSer (kv :: t) = entryChars kv ++ [44] ++ fullSer t := by
  show (kv :: t).foldl (fun acc kv => acc ++ entryChars kv ++ [44]) []
    = entryChars kv ++ [44] ++ fullSer t
  rw [List.foldl_cons, fullSer_shift t]
  simp

theorem writeSettings_single (kv : List Nat × Int) :
    writeSettingsPortMap [kv] = entryChars kv := by
  unfold writeSettingsPortMap
  rw [fullSer_cons]
  have h0 : fullSer [] = [] := rfl
  rw [h0, List.append_nil]
  have h1 : (entryChars kv ++ [44]).length - 1 = (entryChars kv).length := by simp
  rw [h1]
  exact List.take_left _ _

theorem writeSettings_cons (kv : List Nat × Int) (t : List (List Nat × Int))
    (ht : t ≠ []) :
    writeSettingsPortMap (kv :: t) = entryChars kv ++ 44 :: writeSettingsPortMap t := by
  have hX : 0 < (fullSer t).length := by
    rcases t with _ | ⟨kv2, t2⟩
    · exact absurd rfl ht
    · rw [fullSer_cons]
      simp
  unfold writeSettingsPortMap
  rw [fullSer_cons, List.append_assoc]
  have h1 : (entryChars kv ++ ([44] ++ fullSer t)).length - 1
      = (entryChars kv).length + ((fullSer t).length - 1 + 1) := by
    simp only [List.length_append, List.length_cons, List.length_nil]
    omega
  rw [h1, List.take_append]
  rw [List.singleton_append, List.take_succ_cons]

theorem splitOn_writeSettings (m : List (List Nat × Int)) (hm : m ≠ [])
    (hkeys : ∀ kv ∈ m, (44 : Nat) ∉ kv.1) :
    (writeSettingsPortMap m).splitOn 44 = m.map entryChars := by
  induction m with
  | nil => exact absurd rfl hm
  | cons kv t ih =>
    have hk44 : (44 : Nat) ∉ entryChars kv :=
      no44_entry kv (hkeys kv (List.mem_cons_self _ _))
    rcases t with _ | ⟨kv2, t2⟩
    · rw [writeSettings_single]
      show (entryChars kv).splitOnP (fun x => x == 44) = [entryChars kv]
      rw [List.splitOnP_eq_single]
      intro y hy
      simp only [beq_iff_eq]
      exact fun he => hk44 (he ▸ hy)
    · rw [writeSettings_cons kv (kv2 :: t2) (by simp)]
      have hfirst := List.splitOnP_first (fun x => x == (44 : Nat))
        (entryChars kv)
        (fun x hx => by simp only [beq_iff_eq]; exact fun he => hk44 (he ▸ hx))
        44 (by simp) (writeSettingsPortMap (kv2 :: t2))
      show (entryChars kv ++ 44 :: writeSettingsPortMap (kv2 :: t2)).splitOnP
          (fun x => x == 44)
        = entryChars kv :: ((kv2 :: t2).map entryChars)
      rw [hfirst]
      have hconv : (writeSettingsPortMap (kv2 :: t2)).splitOnP (fun x => x == (44 : Nat))
          = (writeSettingsPortMap (kv2 :: t2)).splitOn 44 := rfl
      rw [hconv, ih (by simp) (fun kvm h => hkeys kvm (List.mem_cons_of_mem _ h))]

theorem parse_fold (m : List (List Nat × Int)) :
    ∀ acc : List (List Nat × Int),
      (∀ kv ∈ m, (58 : Nat) ∉ kv.1) →
      ((m.map Prod.fst).Nodup) →
      (∀ kv ∈ m, ∀ kv2 ∈ acc, kv.1 ≠ kv2.1) →
      (m.map entryChars).foldl parseStep acc = acc ++ m := by
  induction m with
  | nil =>
    intro acc _ _ _
    simp
  | cons kv t ih =>
    intro acc hkeys hnodup hdisj
    obtain ⟨k, v⟩ := kv
    simp only [List.map_cons, List.foldl_cons]
    have hk58 : (58 : Nat) ∉ k := hkeys (k, v) (List.mem_cons_self _ _)
    have hany : acc.any (fun kv2 => kv2.1 == k) = false := by
      rw [List.any_eq_false]
      intro kv2 hkv2
      simp only [beq_iff_eq]
      exact fun he => hdisj (k, v) (List.mem_cons_self _ _) kv2 hkv2 he.symm
    have hstep : parseStep acc (entryChars (k, v)) = acc ++ [(k, v)] := by
      unfold parseStep
      rw [no58_entry_key k v hk58]
      show mapInsert acc k (qToInt (qsNumber v)) = acc ++ [(k, v)]
      rw [qToInt_qsNumber]
      unfold mapInsert
      rw [if_neg (by rw [hany]; exact Bool.false_ne_true)]
    rw [hstep]
    have hnodup2 : ((t.map Prod.fst).Nodup) := (List.nodup_cons.1 hnodup).2
    have hknotin : k ∉ t.map Prod.fst := (List.nodup_cons.1 hnodup).1
    rw [ih (acc ++ [(k, v)]) (fun kv2 h => hkeys kv2 (List.mem_cons_of_mem _ h)) hnodup2 ?_]
    · simp
    · intro kvm hm kv2 h2
      rcases List.mem_append.1 h2 with h2 | h2
      · exact hdisj kvm (List.mem_cons_of_mem _ hm) kv2 h2
      · simp only [List.mem_singleton] at h2
        subst h2
        intro he
        apply hknotin
        have hmem : kvm.1 ∈ t.map Prod.fst := List.mem_map_of_mem Prod.fst hm
        rwa [he] at hmem

/-- C9 counterexample: serializing the empty per-port baud map gives the empty
string, and `loadSettings` applied to it does not recover the empty map: the
empty-map fallback installs the single entry (current port, current baud). -/
theorem C9_counterexample :
    loadSettingsPortMap (writeSettingsPortMap []) [97] 9600 = [([97], 9600)] ∧
    ([([97], 9600)] : List (List Nat × Int)) ≠ [] :=
  ⟨by decide, by decide⟩

/-- C9 (amended): for every nonempty per-port baud map whose port names contain
neither a colon nor a comma (and whose keys are distinct, as in a `QMap`),
`writeSettings` serializes it as comma-joined `port:baud` entries with no
trailing comma and `loadSettings` recovers exactly the same mapping; the empty
map is the one exception, recovered as the single fallback entry
(current port, current baud) instead. -/
theorem C9_roundTrip (m : List (List Nat × Int)) (portName : List Nat) (baud : Int)
    (hne : m ≠ [])
    (hkeys : ∀ kv ∈ m, (58 : Nat) ∉ kv.1 ∧ (44 : Nat) ∉ kv.1)
    (hnodup : (m.map Prod.fst).Nodup) :
    loadSettingsPortMap (writeSettingsPortMap m) portName baud = m := by
  unfold loadSettingsPortMap
  rw [splitOn_writeSettings m hne (fun kv h => (hkeys kv h).2)]
  rw [parse_fold m [] (fun kv h => (hkeys kv h).1) hnodup (by simp)]
  simp only [List.nil_append]
  rw [if_neg (by simpa [List.length_eq_zero] using hne)]

/-- Witness for C9 (amended) at the one-entry map `"a" -> 115200`. -/
theorem C9_roundTrip_witness :
    loadSettingsPortMap (writeSettingsPortMap [([97], 115200)]) [100] 9600
      = [([97], 115200)] :=
  C9_roundTrip [([97], 115200)] [100] 9600 (by decide)
    (by intro kv h; simp at h; subst h; constructor <;> decide) (by decide)

end ApmPlanner
